import Mathlib

/-!
# Verification of the openprint-lock frontend core

Shallow embedding of the streaming-enrollment consume loop
(`src/frontend/src/features/fingerprint/FingerprintList.tsx`, `handleAddFingerprint`),
the resource-status controllers (`MonitoringControl.tsx` / `DoorControl`), and the
HTTP configuration layer (`createAPI` in the api service, `useSettingsStore`).

Conventions of the embedding:
* Bytes are `Nat` (values 0..255 as delivered by `reader.read()`).
* `TextDecoder` with `{stream: true}` is modelled as the byte-at-a-time WHATWG
  UTF-8 decoder: a small state machine folded over the incoming bytes, so a
  multi-byte character split across read chunks is decoded exactly once.
* `JSON.parse` of an event payload is an external platform function; the loop is
  parametric in `parse : List Char → Option Event`.  A parse returning `none`
  models a thrown `SyntaxError`.
* The session condition (`SessState`) abstracts the observable outcome of the
  handler: the distinct toast/log paths of the source (success handler, error
  handler, cancelled handler, AbortError catch, stream-end break) each map to a
  distinct constructor.
* After the loop has returned (`finished = true`) the source never reads again;
  the embedding totalizes this by making every later line a no-op on all
  observable fields (`processLine` is the identity once `finished` is set), so
  runs may be composed freely.
-/

namespace OpenPrintLock

/-- A decoded server-sent enrollment event: the `status` and `message` fields of
the JSON payload carried after the `data: ` marker (FingerprintList.tsx:153). -/
structure Event where
  status : String
  message : String
deriving DecidableEq

/-- Observable session condition of one enrollment attempt.  `Starting` is the
condition set by the handler prologue, `Success`/`Error`/`Cancelled` are the
three terminal event paths, `Cancelled` also results from an AbortError, and
`EndedWithoutResult` is the stream-end-without-terminal-event break path. -/
inductive SessState where
  | Idle
  | Starting
  | Registering
  | Success
  | Error
  | Cancelled
  | EndedWithoutResult
deriving DecidableEq

/-- State of the WHATWG streaming UTF-8 decoder (`TextDecoder` with
`{stream: true}`): pending code point accumulator, number of continuation
bytes still needed, and the admissible range for the next continuation byte. -/
structure DecState where
  needed : Nat
  cp : Nat
  lo : Nat
  hi : Nat
deriving DecidableEq

/-- Initial decoder state. -/
def initDec : DecState := ⟨0, 0, 0x80, 0xBF⟩

/-- The Unicode replacement character emitted on malformed input. -/
def repl : Char := Char.ofNat 0xFFFD

/-- Decoder transition for a byte arriving with no sequence in progress. -/
def utf8Start (b : Nat) : DecState × List Char :=
  if b ≤ 0x7F then (initDec, [Char.ofNat b])
  else if 0xC2 ≤ b ∧ b ≤ 0xDF then (⟨1, b % 32, 0x80, 0xBF⟩, [])
  else if 0xE0 ≤ b ∧ b ≤ 0xEF then
    (⟨2, b % 16, if b = 0xE0 then 0xA0 else 0x80, if b = 0xED then 0x9F else 0xBF⟩, [])
  else if 0xF0 ≤ b ∧ b ≤ 0xF4 then
    (⟨3, b % 8, if b = 0xF0 then 0x90 else 0x80, if b = 0xF4 then 0x8F else 0xBF⟩, [])
  else (initDec, [repl])

/-- One byte of the streaming UTF-8 decoder.  On an invalid continuation byte
the WHATWG decoder emits a replacement character and reprocesses the byte as a
potential sequence start. -/
def utf8Step (s : DecState) (b : Nat) : DecState × List Char :=
  if s.needed = 0 then utf8Start b
  else if s.lo ≤ b ∧ b ≤ s.hi then
    let cp := s.cp * 64 + b % 64
    if s.needed = 1 then (initDec, [Char.ofNat cp])
    else (⟨s.needed - 1, cp, 0x80, 0xBF⟩, [])
  else
    let r := utf8Start b
    (r.1, repl :: r.2)

/-- Fold the streaming decoder over a list of bytes, returning the final decoder
state and all characters emitted. -/
def utf8DecodeList : DecState → List Nat → DecState × List Char
  | s, [] => (s, [])
  | s, b :: bs =>
    let r1 := utf8Step s b
    let r2 := utf8DecodeList r1.1 bs
    (r2.1, r1.2 ++ r2.2)

/-- `buffer.split('\n')` with the last element popped back into the buffer
(FingerprintList.tsx:146-147): the complete (newline-terminated) lines and the
trailing partial line. -/
def splitNl : List Char → List (List Char) × List Char
  | [] => ([], [])
  | c :: cs =>
    let r := splitNl cs
    if c = '\n' then ([] :: r.1, r.2)
    else
      match r.1 with
      | [] => ([], c :: r.2)
      | l :: ls => ((c :: l) :: ls, r.2)

/-- `line.startsWith('data: ')` (FingerprintList.tsx:150). -/
def hasMarker : List Char → Bool
  | 'd' :: 'a' :: 't' :: 'a' :: ':' :: ' ' :: _ => true
  | _ => false

/-- The characters of the fixed event-line marker `data: `. -/
def markerChars : List Char := ['d', 'a', 't', 'a', ':', ' ']

/-- Transcript entry of the handler prologue (FingerprintList.tsx:96). -/
def startMsg (label : String) : String :=
  "Starting registration for \"" ++ label ++ "\"..."

/-- Transcript entry appended when a read reports `done` (line 137). -/
def streamEndedMsg : String := "Registration stream ended."

/-- Transcript entry appended by the AbortError catch (line 190). -/
def abortMsg : String := "Fingerprint registration cancelled by user."

/-- Transcript entry appended when `JSON.parse` throws (line 183); the
`e.message` suffix is abstracted away. -/
def parseErrMsg : String := "Error parsing SSE event."

/-- Full state of one run of the consume loop. `transcript` is `sseLog`,
`events` the successfully decoded payloads in arrival order, `streamClosed`
records `reader.cancel()`, `refreshCount` the number of `fetchFingerprints()`
invocations, `finished` that the loop has returned or broken, and
`buffer`/`dec` the text buffer and decoder state carried across reads. -/
structure LoopState where
  transcript : List String
  events : List Event
  sess : SessState
  streamClosed : Bool
  refreshCount : Nat
  finished : Bool
  buffer : List Char
  dec : DecState
deriving DecidableEq

/-- The observable part of a run: everything except the internal text buffer
and decoder state, which the source never exposes. -/
structure Obs where
  transcript : List String
  events : List Event
  sess : SessState
  streamClosed : Bool
  refreshCount : Nat
  finished : Bool
deriving DecidableEq

/-- Project a loop state to its observable part. -/
def LoopState.obs (st : LoopState) : Obs :=
  ⟨st.transcript, st.events, st.sess, st.streamClosed, st.refreshCount, st.finished⟩

/-- State established by the handler prologue before the first read
(FingerprintList.tsx:95-110). -/
def startState (label : String) : LoopState :=
  { transcript := [startMsg label]
    events := []
    sess := SessState.Starting
    streamClosed := false
    refreshCount := 0
    finished := false
    buffer := []
    dec := initDec }

/-- Processing of one complete line (FingerprintList.tsx:149-186): lines
without the `data: ` marker are skipped; otherwise the payload after the
marker is parsed.  A parse failure appends a note and continues.  A parsed
event appends its message; status `success` closes the stream, triggers the
identity-list refresh and returns; `error` records the error condition but
keeps the loop running; `cancelled` closes the stream and returns; anything
else (e.g. `progress`) only logs.  Once the loop has returned the line is
never seen by the source, so the function is the identity. -/
def processLine (parse : List Char → Option Event) (st : LoopState) (line : List Char) :
    LoopState :=
  if st.finished then st
  else if hasMarker line then
    let payload := line.drop 6
    match parse payload with
    | none => { st with transcript := st.transcript ++ [parseErrMsg] }
    | some ev =>
      let st1 := { st with transcript := st.transcript ++ [ev.message],
                           events := st.events ++ [ev] }
      if ev.status = "success" then
        { st1 with sess := SessState.Success, finished := true, streamClosed := true,
                   refreshCount := st1.refreshCount + 1 }
      else if ev.status = "error" then
        { st1 with sess := SessState.Error }
      else if ev.status = "cancelled" then
        { st1 with sess := SessState.Cancelled, finished := true, streamClosed := true }
      else st1
  else st

/-- Feed already-decoded text through the buffering logic
(FingerprintList.tsx:145-147): append to the buffer, split on newlines, keep
the trailing partial line, process every complete line in order. -/
def textFeed (parse : List Char → Option Event) (st : LoopState) (cs : List Char) :
    LoopState :=
  let sp := splitNl (st.buffer ++ cs)
  let st1 := sp.1.foldl (processLine parse) st
  { st1 with buffer := sp.2 }

/-- Feed one read chunk of bytes: decode with the streaming decoder, then run
the text through the line buffer. -/
def byteFeed (parse : List Char → Option Event) (st : LoopState) (bs : List Nat) :
    LoopState :=
  let d := utf8DecodeList st.dec bs
  { textFeed parse st d.2 with dec := d.1 }

/-- Is the session still awaiting a terminal outcome? -/
def activeSess : SessState → Bool
  | SessState.Starting => true
  | SessState.Registering => true
  | _ => false

/-- The `done` branch of the read loop (FingerprintList.tsx:136-143): append
the ended marker and break.  A session that was still active is left in the
distinct `EndedWithoutResult` condition; a session already in the error
condition keeps it. -/
def endStep (st : LoopState) : LoopState :=
  if st.finished then st
  else
    { st with transcript := st.transcript ++ [streamEndedMsg],
              sess := if activeSess st.sess then SessState.EndedWithoutResult else st.sess,
              finished := true }

/-- The AbortError catch (FingerprintList.tsx:189-192): entered when a read
rejects because the cancellation signal was set; appends the cancellation note
and ends the run in the `Cancelled` condition. -/
def abortStep (st : LoopState) : LoopState :=
  if st.finished then st
  else
    { st with transcript := st.transcript ++ [abortMsg],
              sess := SessState.Cancelled, finished := true }

/-- Outcome of one `await reader.read()`: a chunk of bytes, end of stream, or
rejection because the cancellation signal had been set when the read resumed. -/
inductive Read where
  | chunk (bs : List Nat)
  | done
  | aborted
deriving DecidableEq

/-- One iteration of the `while (true)` consume loop, dispatching on the read
outcome. -/
def readStep (parse : List Char → Option Event) (st : LoopState) : Read → LoopState
  | Read.chunk bs => byteFeed parse st bs
  | Read.done => endStep st
  | Read.aborted => abortStep st

/-- The whole consume loop over a sequence of read outcomes. -/
def runReads (parse : List Char → Option Event) (st : LoopState) (rs : List Read) :
    LoopState :=
  rs.foldl (readStep parse) st

/-! ## Handler prologue and UI guard (FingerprintList.tsx:94-110, 285-319) -/

/-- The slice of component state touched by the prologue of
`handleAddFingerprint`. -/
structure UIState where
  isRegistering : Bool
  sseLog : List String
deriving DecidableEq

/-- Result of invoking `handleAddFingerprint` up to and including the POST
(FingerprintList.tsx:94-110): the handler unconditionally marks the session
registering, replaces the log with the start entry, installs a fresh abort
controller and issues the network request; no precondition is checked and no
error is raised. -/
structure StartResult where
  state : UIState
  networkCallIssued : Bool
  precondErrorRaised : Bool
deriving DecidableEq

/-- The prologue of `handleAddFingerprint` as a function of the prior component
state. -/
def handleAddFingerprintPrologue (_prev : UIState) (label : String) : StartResult :=
  { state := { isRegistering := true, sseLog := [startMsg label] }
    networkCallIssued := true
    precondErrorRaised := false }

/-- The `key` props of the buttons rendered in the add-modal footer
(FingerprintList.tsx:291-310): while registering only the cancel-operation
button exists; otherwise a close and a submit button. -/
def modalFooterKeys (isRegistering : Bool) : List String :=
  if isRegistering then ["cancelOp"] else ["close", "submit"]

/-- The name input is disabled while registering (FingerprintList.tsx:318). -/
def nameInputDisabled (isRegistering : Bool) : Bool := isRegistering

/-! ## Resource controllers (MonitoringControl.tsx / DoorControl) -/

/-- Classified request failure (the response-interceptor branches of the api
service and the fetch catch paths). -/
inductive Failure where
  | unauthorized
  | notFound
  | serverError (code : Nat)
  | networkUnreachable
  | other (msg : String)
deriving DecidableEq

/-- `fetchMonitoringStatus` (MonitoringControl.tsx:16-27) as a state update:
the stored status after the call and whether the catch surfaced an error
toast.  A successful response stores `response.data.status` verbatim — there is
no validation against the recognized enum values; only a failed request leaves
the previous value and surfaces an error. -/
def fetchMonitoringStatusStep (prev : String) (resp : Option String) : String × Bool :=
  match resp with
  | some s => (s, false)
  | none => (prev, true)

/-- `fetchDoorStatus` (DoorControl, MonitoringControl.tsx:178-189): identical
shape. -/
def fetchDoorStatusStep (prev : String) (resp : Option String) : String × Bool :=
  match resp with
  | some s => (s, false)
  | none => (prev, true)

/-- The status values with a dedicated rendering branch in MonitoringControl. -/
def recognizedMonitoringStatus (s : String) : Bool :=
  s = "enabled_and_active" || s = "enabled_but_paused" || s = "disabled"

/-- The status values with a dedicated rendering branch in DoorControl. -/
def recognizedDoorStatus (s : String) : Bool :=
  s = "locked" || s = "unlocked"

/-- Badge presentation kinds used by `getStatusBadge`. -/
inductive BadgeKind where
  | processing
  | warning
  | error
  | success
  | default
deriving DecidableEq

/-- `getStatusBadge` of MonitoringControl.tsx:69-79: every value outside the
three recognized ones falls through to the default (unknown) badge. -/
def monitoringBadge (s : String) : BadgeKind :=
  if s = "enabled_and_active" then BadgeKind.processing
  else if s = "enabled_but_paused" then BadgeKind.warning
  else if s = "disabled" then BadgeKind.error
  else BadgeKind.default

/-- `getStatusBadge` of DoorControl (MonitoringControl.tsx:223-231). -/
def doorBadge (s : String) : BadgeKind :=
  if s = "locked" then BadgeKind.error
  else if s = "unlocked" then BadgeKind.success
  else BadgeKind.default

/-- Icon kinds used by the `Statistic` prefix in MonitoringControl. -/
inductive IconKind where
  | eye
  | eyeInvisible
  | syncSpin
deriving DecidableEq

/-- The `Statistic` prefix icon (MonitoringControl.tsx:111-119): the active
status gets the eye, the literal `unknown` gets the spinner, and every other
value — recognized or not — falls through to the invisible-eye icon. -/
def monitoringStatIcon (s : String) : IconKind :=
  if s = "enabled_and_active" then IconKind.eye
  else if s = "unknown" then IconKind.syncSpin
  else IconKind.eyeInvisible

/-- A command handler such as `handleStartMonitoring`, `handleStopMonitoring`,
`handleLock` or `handleUnlock` (MonitoringControl.tsx:29-55, 191-217): on a
successful POST the local status is set optimistically to the command's target
value; on failure the status is untouched and the caught failure is the one the
request rejected with. -/
def applyResourceCommand (prev target : String) (resp : Except Failure Unit) :
    String × Option Failure :=
  match resp with
  | Except.ok _ => (target, none)
  | Except.error e => (prev, some e)

/-- One controller interaction, for stating ordering of effects. -/
inductive ResourceAction where
  | fetchOk (s : String)
  | fetchFail
  | cmdOk (target : String)
  | cmdFail
deriving DecidableEq

/-- Status evolution of a controller over a sequence of interactions. -/
def resourceStep (st : String) : ResourceAction → String
  | ResourceAction.fetchOk s => s
  | ResourceAction.fetchFail => st
  | ResourceAction.cmdOk t => t
  | ResourceAction.cmdFail => st

/-! ## HTTP configuration layer (api service `createAPI`, settings store) -/

/-- The externally-owned settings (`useSettingsStore`): endpoint base address
and bearer token. -/
structure Config where
  baseUrl : String
  token : String
deriving DecidableEq

/-- The per-request fields the api service controls: effective base URL and
`Authorization` header. -/
structure RequestConfig where
  baseURL : String
  authorization : String
deriving DecidableEq

/-- The axios instance defaults captured by `createAPI` at construction from
the settings current at that moment. -/
def axiosInstanceDefaults (snap : Config) : RequestConfig :=
  { baseURL := snap.baseUrl, authorization := "Bearer " ++ snap.token }

/-- The request interceptor installed by `createAPI`: on every request it
re-reads the settings store and overwrites the base URL and the Authorization
header with the values current at issue time. -/
def requestInterceptor (current : Config) (cfg : RequestConfig) : RequestConfig :=
  { cfg with baseURL := current.baseUrl,
             authorization := "Bearer " ++ current.token }

/-- The configuration an axios request is actually issued with: the instance
defaults from construction time, passed through the interceptor with the
settings current at issue time. -/
def issuedRequest (snap current : Config) : RequestConfig :=
  requestInterceptor current (axiosInstanceDefaults snap)

/-- The enrollment-stream `fetch` (FingerprintList.tsx:99-110) reads
`useSettingsStore.getState()` when the request is issued and builds its URL and
Authorization header from those values. -/
def enrollmentFetchRequest (current : Config) : RequestConfig :=
  { baseURL := current.baseUrl, authorization := "Bearer " ++ current.token }

/-- The error path of the response interceptor in the api service: after
logging a diagnostic it rejects with the original error object, unmodified. -/
def responseInterceptorError (e : Failure) : Failure := e

/-! ## Concrete instances used to exercise the theorems -/

/-- A concrete payload parser standing in for `JSON.parse` on a fixed set of
payloads, used to instantiate the parse parameter on concrete runs. -/
def sampleParse : List Char → Option Event := fun p =>
  if p = ['p', '1'] then some ⟨"progress", "step one"⟩
  else if p = ['p', '2'] then some ⟨"progress", "step two"⟩
  else if p = ['s'] then some ⟨"success", "all done"⟩
  else if p = ['e'] then some ⟨"error", "boom"⟩
  else none

/-- ASCII bytes of `"data: p1\ndata: p2\ndata: s\n"`: two progress events
followed by one success event, each on its own marker line. -/
def okBytes : List Nat :=
  [100, 97, 116, 97, 58, 32, 112, 49, 10,
   100, 97, 116, 97, 58, 32, 112, 50, 10,
   100, 97, 116, 97, 58, 32, 115, 10]

/-- Bytes of `"data: é\n"` (the payload character é is the two-byte sequence
`C3 A9`), used to place a chunk boundary inside a multi-byte character. -/
def accentBytes : List Nat := [100, 97, 116, 97, 58, 32, 0xC3, 0xA9, 10]

/-! ## Composition lemmas for the streaming decoder and the line buffer -/

theorem splitNl_nil : splitNl [] = ([], []) := rfl

theorem splitNl_cons_nl (cs : List Char) :
    splitNl ('\n' :: cs) = ([] :: (splitNl cs).1, (splitNl cs).2) := by
  simp [splitNl]

theorem splitNl_cons_ne_nil (c : Char) (cs : List Char) (hc : ¬ c = '\n')
    (h : (splitNl cs).1 = []) :
    splitNl (c :: cs) = ([], c :: (splitNl cs).2) := by
  simp [splitNl, hc, h]

theorem splitNl_cons_ne_cons (c : Char) (cs : List Char) (hc : ¬ c = '\n')
    (l : List Char) (ls : List (List Char)) (h : (splitNl cs).1 = l :: ls) :
    splitNl (c :: cs) = ((c :: l) :: ls, (splitNl cs).2) := by
  simp [splitNl, hc, h]

/-- Splitting a concatenation: the complete lines of `xs ++ ys` are the
complete lines of `xs` followed by the complete lines of the retained trailing
partial of `xs` glued to `ys`; the new trailing partial comes from that second
split.  This is exactly the buffering discipline of the consume loop. -/
theorem splitNl_append (xs ys : List Char) :
    splitNl (xs ++ ys)
      = ((splitNl xs).1 ++ (splitNl ((splitNl xs).2 ++ ys)).1,
         (splitNl ((splitNl xs).2 ++ ys)).2) := by
  induction xs with
  | nil => simp [splitNl_nil]
  | cons c cs ih =>
    by_cases hc : c = '\n'
    · subst hc
      rw [List.cons_append, splitNl_cons_nl, splitNl_cons_nl, ih]
      simp
    · cases h1 : (splitNl cs).1 with
      | nil =>
        have hcs : splitNl (cs ++ ys)
            = ((splitNl ((splitNl cs).2 ++ ys)).1, (splitNl ((splitNl cs).2 ++ ys)).2) := by
          rw [ih, h1]; simp
        rw [List.cons_append, splitNl_cons_ne_nil c cs hc h1]
        cases h2 : (splitNl ((splitNl cs).2 ++ ys)).1 with
        | nil =>
          rw [splitNl_cons_ne_nil c (cs ++ ys) hc (by rw [hcs]; exact h2),
            List.cons_append,
            splitNl_cons_ne_nil c ((splitNl cs).2 ++ ys) hc h2, hcs]
          simp
        | cons m ms =>
          rw [splitNl_cons_ne_cons c (cs ++ ys) hc m ms (by rw [hcs]; exact h2),
            List.cons_append,
            splitNl_cons_ne_cons c ((splitNl cs).2 ++ ys) hc m ms h2, hcs]
          simp
      | cons l ls =>
        rw [List.cons_append,
          splitNl_cons_ne_cons c (cs ++ ys) hc l (ls ++ (splitNl ((splitNl cs).2 ++ ys)).1)
            (by rw [ih, h1]; simp),
          splitNl_cons_ne_cons c cs hc l ls h1, ih]
        simp

/-- The streaming UTF-8 decoder is a byte-at-a-time fold, so decoding composes
over arbitrary chunk boundaries, including ones inside a multi-byte
character. -/
theorem utf8DecodeList_append (s : DecState) (b1 b2 : List Nat) :
    utf8DecodeList s (b1 ++ b2)
      = ((utf8DecodeList (utf8DecodeList s b1).1 b2).1,
         (utf8DecodeList s b1).2 ++ (utf8DecodeList (utf8DecodeList s b1).1 b2).2) := by
  induction b1 generalizing s with
  | nil => simp [utf8DecodeList]
  | cons b bs ih => simp [utf8DecodeList, ih]

/-- A trailing partial line never contains a newline. -/
theorem splitNl_snd_no_nl (cs : List Char) : '\n' ∉ (splitNl cs).2 := by
  induction cs with
  | nil => simp [splitNl_nil]
  | cons c cs ih =>
    by_cases hc : c = '\n'
    · subst hc; rw [splitNl_cons_nl]; exact ih
    · cases h1 : (splitNl cs).1 with
      | nil =>
        rw [splitNl_cons_ne_nil c cs hc h1]
        simp only [List.mem_cons, not_or]
        exact ⟨fun h => hc h.symm, ih⟩
      | cons l ls => rw [splitNl_cons_ne_cons c cs hc l ls h1]; exact ih

/-- A newline-free list splits into no complete line and itself as trail. -/
theorem splitNl_no_nl (cs : List Char) (h : '\n' ∉ cs) : splitNl cs = ([], cs) := by
  induction cs with
  | nil => rfl
  | cons c cs ih =>
    simp only [List.mem_cons, not_or] at h
    have hc : ¬ c = '\n' := fun hh => h.1 hh.symm
    rw [splitNl_cons_ne_nil c cs hc (by rw [ih h.2]), ih h.2]

/-- A newline-free segment followed by a newline is split off as one complete
line. -/
theorem splitNl_line (xs ys : List Char) (h : '\n' ∉ xs) :
    splitNl (xs ++ '\n' :: ys) = (xs :: (splitNl ys).1, (splitNl ys).2) := by
  induction xs with
  | nil => simp [splitNl_cons_nl]
  | cons c cs ih =>
    simp only [List.mem_cons, not_or] at h
    have hc : ¬ c = '\n' := fun hh => h.1 hh.symm
    have ihh := ih h.2
    rw [List.cons_append,
      splitNl_cons_ne_cons c (cs ++ '\n' :: ys) hc cs (splitNl ys).1 (by rw [ihh]), ihh]

/-- Processing a line neither reads nor writes the text buffer or the decoder
state. -/
theorem processLine_setBufDec (parse : List Char → Option Event) (st : LoopState)
    (b : List Char) (d : DecState) (line : List Char) :
    processLine parse { st with buffer := b, dec := d } line
      = { processLine parse st line with buffer := b, dec := d } := by
  unfold processLine
  by_cases hf : st.finished = true
  · simp [hf]
  · simp only [Bool.not_eq_true] at hf
    by_cases hm : hasMarker line
    · cases hp : parse (line.drop 6) with
      | none => simp [hf, hm, hp]
      | some ev =>
        by_cases hs : ev.status = "success"
        · simp [hf, hm, hp, hs]
        · by_cases he : ev.status = "error"
          · simp [hf, hm, hp, hs, he]
          · by_cases hk : ev.status = "cancelled"
            · simp [hf, hm, hp, hs, he, hk]
            · simp [hf, hm, hp, hs, he, hk]
    · simp [hf, hm]

theorem foldl_processLine_setBufDec (parse : List Char → Option Event)
    (ls : List (List Char)) (st : LoopState) (b : List Char) (d : DecState) :
    ls.foldl (processLine parse) { st with buffer := b, dec := d }
      = { ls.foldl (processLine parse) st with buffer := b, dec := d } := by
  induction ls generalizing st with
  | nil => rfl
  | cons l ls ih => rw [List.foldl_cons, List.foldl_cons, processLine_setBufDec, ih]

/-- Processing a line leaves the text buffer and the decoder state as they
were. -/
theorem processLine_buffer_dec (parse : List Char → Option Event) (st : LoopState)
    (line : List Char) :
    (processLine parse st line).buffer = st.buffer
      ∧ (processLine parse st line).dec = st.dec := by
  unfold processLine
  by_cases hf : st.finished = true
  · simp [hf]
  · simp only [Bool.not_eq_true] at hf
    by_cases hm : hasMarker line
    · cases hp : parse (line.drop 6) with
      | none => simp [hf, hm, hp]
      | some ev =>
        by_cases hs : ev.status = "success"
        · simp [hf, hm, hp, hs]
        · by_cases he : ev.status = "error"
          · simp [hf, hm, hp, hs, he]
          · by_cases hk : ev.status = "cancelled"
            · simp [hf, hm, hp, hs, he, hk]
            · simp [hf, hm, hp, hs, he, hk]
    · simp [hf, hm]

theorem foldl_processLine_buffer_dec (parse : List Char → Option Event)
    (ls : List (List Char)) (st : LoopState) :
    (ls.foldl (processLine parse) st).buffer = st.buffer
      ∧ (ls.foldl (processLine parse) st).dec = st.dec := by
  induction ls generalizing st with
  | nil => exact ⟨rfl, rfl⟩
  | cons l ls ih =>
    rw [List.foldl_cons]
    exact ⟨(ih _).1.trans (processLine_buffer_dec parse st l).1,
           (ih _).2.trans (processLine_buffer_dec parse st l).2⟩

/-- A buffer-only update commutes the same way. -/
theorem foldl_processLine_setBuf (parse : List Char → Option Event)
    (ls : List (List Char)) (st : LoopState) (b : List Char) :
    ls.foldl (processLine parse) { st with buffer := b }
      = { ls.foldl (processLine parse) st with buffer := b } := by
  have h1 : ({ st with buffer := b } : LoopState)
      = { st with buffer := b, dec := st.dec } := rfl
  rw [h1, foldl_processLine_setBufDec]
  simp [(foldl_processLine_buffer_dec parse ls st).2]

/-- A decoder-state-only update commutes the same way. -/
theorem foldl_processLine_setDec (parse : List Char → Option Event)
    (ls : List (List Char)) (st : LoopState) (d : DecState) :
    ls.foldl (processLine parse) { st with dec := d }
      = { ls.foldl (processLine parse) st with dec := d } := by
  have h1 : ({ st with dec := d } : LoopState)
      = { st with buffer := st.buffer, dec := d } := rfl
  rw [h1, foldl_processLine_setBufDec]
  simp [(foldl_processLine_buffer_dec parse ls st).1]

/-- Feeding text composes: feeding two pieces one after the other is feeding
their concatenation.  This is the buffering-correctness core. -/
theorem textFeed_append (parse : List Char → Option Event) (st : LoopState)
    (c1 c2 : List Char) :
    textFeed parse (textFeed parse st c1) c2 = textFeed parse st (c1 ++ c2) := by
  simp only [textFeed]
  rw [← List.append_assoc, splitNl_append (st.buffer ++ c1) c2]
  simp only [List.foldl_append]
  rw [foldl_processLine_setBuf]

theorem textFeed_setDec (parse : List Char → Option Event) (st : LoopState)
    (cs : List Char) (d : DecState) :
    textFeed parse { st with dec := d } cs = { textFeed parse st cs with dec := d } := by
  simp only [textFeed]
  rw [show ({ st with dec := d } : LoopState).buffer = st.buffer from rfl,
    foldl_processLine_setDec]

/-- Feeding byte chunks composes: two consecutive reads are equivalent to one
read delivering their concatenation, whatever the boundary. -/
theorem byteFeed_append (parse : List Char → Option Event) (st : LoopState)
    (b1 b2 : List Nat) :
    byteFeed parse (byteFeed parse st b1) b2 = byteFeed parse st (b1 ++ b2) := by
  simp only [byteFeed, utf8DecodeList_append, ← textFeed_append, textFeed_setDec]

theorem byteFeed_buffer (parse : List Char → Option Event) (st : LoopState)
    (bs : List Nat) :
    (byteFeed parse st bs).buffer
      = (splitNl (st.buffer ++ (utf8DecodeList st.dec bs).2)).2 := by
  simp [byteFeed, textFeed]

/-- Feeding an empty chunk to a state whose buffer holds no newline (the
loop invariant) changes nothing. -/
theorem byteFeed_nil (parse : List Char → Option Event) (st : LoopState)
    (h : '\n' ∉ st.buffer) :
    byteFeed parse st [] = st := by
  simp [byteFeed, utf8DecodeList, textFeed, splitNl_no_nl st.buffer h]

theorem runReads_append (parse : List Char → Option Event) (st : LoopState)
    (r1 r2 : List Read) :
    runReads parse st (r1 ++ r2) = runReads parse (runReads parse st r1) r2 := by
  simp [runReads, List.foldl_append]

/-- A sequence of data reads is equivalent to one read delivering all the
bytes at once. -/
theorem runReads_chunks (parse : List Char → Option Event) (st : LoopState)
    (parts : List (List Nat)) (h : '\n' ∉ st.buffer) :
    runReads parse st (parts.map Read.chunk) = byteFeed parse st parts.flatten := by
  induction parts generalizing st with
  | nil => simp [runReads, byteFeed_nil parse st h]
  | cons p ps ih =>
    have hb : '\n' ∉ (byteFeed parse st p).buffer := by
      rw [byteFeed_buffer]; exact splitNl_snd_no_nl _
    calc runReads parse st ((p :: ps).map Read.chunk)
        = runReads parse (byteFeed parse st p) (ps.map Read.chunk) := by
          simp [runReads, readStep]
      _ = byteFeed parse (byteFeed parse st p) ps.flatten := ih _ hb
      _ = byteFeed parse st (p :: ps).flatten := by
          rw [byteFeed_append]; simp

/-! ## The loop after it has returned, and the session-condition invariant -/

theorem processLine_finished (parse : List Char → Option Event) (st : LoopState)
    (line : List Char) (h : st.finished = true) :
    processLine parse st line = st := by
  simp [processLine, h]

theorem foldl_processLine_finished (parse : List Char → Option Event)
    (ls : List (List Char)) (st : LoopState) (h : st.finished = true) :
    ls.foldl (processLine parse) st = st := by
  induction ls with
  | nil => rfl
  | cons l ls ih => rw [List.foldl_cons, processLine_finished parse st l h, ih]

/-- Once the loop has returned, later chunks change nothing observable. -/
theorem byteFeed_obs_finished (parse : List Char → Option Event) (st : LoopState)
    (bs : List Nat) (h : st.finished = true) :
    (byteFeed parse st bs).obs = st.obs := by
  simp [byteFeed, textFeed, foldl_processLine_finished parse _ st h, LoopState.obs]

theorem endStep_finished (st : LoopState) (h : st.finished = true) :
    endStep st = st := by
  simp [endStep, h]

theorem abortStep_finished (st : LoopState) (h : st.finished = true) :
    abortStep st = st := by
  simp [abortStep, h]

/-- Once the loop has returned, any sequence of further read outcomes changes
nothing observable: the source never executes them. -/
theorem runReads_obs_finished (parse : List Char → Option Event) (st : LoopState)
    (rs : List Read) (h : st.finished = true) :
    (runReads parse st rs).obs = st.obs := by
  induction rs generalizing st with
  | nil => rfl
  | cons r rs ih =>
    cases r with
    | chunk bs =>
      have h1 := byteFeed_obs_finished parse st bs h
      have h2 : (byteFeed parse st bs).finished = true := by
        have := congrArg Obs.finished h1
        simpa [LoopState.obs] using this.trans h
      calc (runReads parse st (Read.chunk bs :: rs)).obs
          = (runReads parse (byteFeed parse st bs) rs).obs := by
            simp [runReads, readStep]
        _ = (byteFeed parse st bs).obs := ih _ h2
        _ = st.obs := h1
    | done =>
      calc (runReads parse st (Read.done :: rs)).obs
          = (runReads parse (endStep st) rs).obs := by simp [runReads, readStep]
        _ = st.obs := by rw [endStep_finished st h]; exact ih _ h
    | aborted =>
      calc (runReads parse st (Read.aborted :: rs)).obs
          = (runReads parse (abortStep st) rs).obs := by simp [runReads, readStep]
        _ = st.obs := by rw [abortStep_finished st h]; exact ih _ h

/-- A line can only finish the run with a non-active session condition. -/
theorem processLine_inv (parse : List Char → Option Event) (st : LoopState)
    (line : List Char) (h : st.finished = true → activeSess st.sess = false) :
    (processLine parse st line).finished = true
      → activeSess (processLine parse st line).sess = false := by
  unfold processLine
  by_cases hf : st.finished = true
  · simpa [hf] using h hf
  · simp only [Bool.not_eq_true] at hf
    by_cases hm : hasMarker line
    · cases hp : parse (line.drop 6) with
      | none => simp [hf, hm, hp]
      | some ev =>
        by_cases hs : ev.status = "success"
        · simp [hf, hm, hp, hs, activeSess]
        · by_cases he : ev.status = "error"
          · simp [hf, hm, hp, hs, he]
          · by_cases hk : ev.status = "cancelled"
            · simp [hf, hm, hp, hs, he, hk, activeSess]
            · simp [hf, hm, hp, hs, he, hk]
    · simp [hf, hm]

theorem foldl_processLine_inv (parse : List Char → Option Event)
    (ls : List (List Char)) (st : LoopState)
    (h : st.finished = true → activeSess st.sess = false) :
    (ls.foldl (processLine parse) st).finished = true
      → activeSess (ls.foldl (processLine parse) st).sess = false := by
  induction ls generalizing st with
  | nil => exact h
  | cons l ls ih =>
    rw [List.foldl_cons]
    exact ih _ (processLine_inv parse st l h)

theorem readStep_inv (parse : List Char → Option Event) (st : LoopState) (r : Read)
    (h : st.finished = true → activeSess st.sess = false) :
    (readStep parse st r).finished = true
      → activeSess (readStep parse st r).sess = false := by
  cases r with
  | chunk bs =>
    have := foldl_processLine_inv parse (splitNl (st.buffer ++ (utf8DecodeList st.dec bs).2)).1 st h
    simpa [readStep, byteFeed, textFeed] using this
  | done =>
    by_cases hf : st.finished = true
    · rw [readStep, endStep_finished st hf]; exact h
    · simp only [Bool.not_eq_true] at hf
      cases ha : activeSess st.sess with
      | true =>
        have he : endStep st
            = { st with transcript := st.transcript ++ [streamEndedMsg],
                        sess := SessState.EndedWithoutResult, finished := true } := by
          simp [endStep, hf, ha]
        simp [readStep, he, activeSess]
      | false =>
        have he : endStep st
            = { st with transcript := st.transcript ++ [streamEndedMsg],
                        finished := true } := by
          simp [endStep, hf, ha]
        simpa [readStep, he] using ha
  | aborted =>
    by_cases hf : st.finished = true
    · rw [readStep, abortStep_finished st hf]; exact h
    · simp only [Bool.not_eq_true] at hf
      simp [readStep, abortStep, hf, activeSess]

/-- Invariant of the whole loop: once the run is finished the session condition
is never still `Starting`/`Registering`; contrapositively, an active condition
means the loop is still running. -/
theorem runReads_inv (parse : List Char → Option Event) (st : LoopState)
    (rs : List Read) (h : st.finished = true → activeSess st.sess = false) :
    (runReads parse st rs).finished = true
      → activeSess (runReads parse st rs).sess = false := by
  induction rs generalizing st with
  | nil => exact h
  | cons r rs ih =>
    have h1 : runReads parse st (r :: rs) = runReads parse (readStep parse st r) rs := by
      simp [runReads]
    rw [h1]
    exact ih _ (readStep_inv parse st r h)

/-- An active session condition implies the loop has not returned. -/
theorem active_not_finished (parse : List Char → Option Event) (label : String)
    (rs : List Read)
    (h : activeSess (runReads parse (startState label) rs).sess = true) :
    (runReads parse (startState label) rs).finished = false := by
  by_contra hf
  simp only [Bool.not_eq_false] at hf
  have := runReads_inv parse (startState label) rs (by simp [startState]) hf
  rw [this] at h
  exact Bool.false_ne_true h

/-! ## Claims -/

/-- Claim C1: for every fixed sequence of event-stream bytes and every
partitioning of those bytes into arbitrary read chunks — including chunk
boundaries falling inside a line or inside a multi-byte character — the run of
the consume loop, and in particular the decoded sequence of `EnrollmentEvent`
payloads appended to the transcript, is identical regardless of the chunk
boundaries: each read's bytes are appended to a text buffer, the buffer is
split on newline boundaries, and the trailing partial line is retained across
reads. -/
theorem enroll_run_chunk_invariant (parse : List Char → Option Event) (label : String)
    (parts1 parts2 : List (List Nat)) (h : parts1.flatten = parts2.flatten) :
    runReads parse (startState label) (parts1.map Read.chunk ++ [Read.done])
      = runReads parse (startState label) (parts2.map Read.chunk ++ [Read.done]) := by
  have hb : '\n' ∉ (startState label).buffer := by simp [startState]
  rw [runReads_append, runReads_append, runReads_chunks parse _ parts1 hb,
    runReads_chunks parse _ parts2 hb, h]

/-- Witness for C1: the bytes of one `data: é\n` line, with the chunk boundary
inside the two-byte character é, decode to the same run as a single chunk. -/
theorem enroll_run_chunk_invariant_witness :
    ([[100, 97, 116, 97, 58, 32, 0xC3], [0xA9, 10]] : List (List Nat)).flatten
        = ([accentBytes] : List (List Nat)).flatten
      ∧ runReads sampleParse (startState "a")
            (([[100, 97, 116, 97, 58, 32, 0xC3], [0xA9, 10]] : List (List Nat)).map
              Read.chunk ++ [Read.done])
          = runReads sampleParse (startState "a")
            (([accentBytes] : List (List Nat)).map Read.chunk ++ [Read.done]) :=
  ⟨by decide, enroll_run_chunk_invariant sampleParse "a" _ _ (by decide)⟩

/-- Claim C2: a stream that reaches end-of-stream while the session condition
is still active (no success, error or cancelled event delivered) appends the
ended marker and moves the session to `EndedWithoutResult`, a condition
distinct from `Success`, `Error` and `Cancelled`. -/
theorem enroll_end_without_terminal (parse : List Char → Option Event) (label : String)
    (chunks : List (List Nat))
    (h : activeSess (runReads parse (startState label) (chunks.map Read.chunk)).sess
        = true) :
    (runReads parse (startState label) (chunks.map Read.chunk ++ [Read.done])).sess
        = SessState.EndedWithoutResult
      ∧ (runReads parse (startState label)
            (chunks.map Read.chunk ++ [Read.done])).transcript
          = (runReads parse (startState label) (chunks.map Read.chunk)).transcript
            ++ [streamEndedMsg]
      ∧ SessState.EndedWithoutResult ≠ SessState.Success
      ∧ SessState.EndedWithoutResult ≠ SessState.Error
      ∧ SessState.EndedWithoutResult ≠ SessState.Cancelled := by
  have hf := active_not_finished parse label (chunks.map Read.chunk) h
  have hrun : runReads parse (startState label) (chunks.map Read.chunk ++ [Read.done])
      = endStep (runReads parse (startState label) (chunks.map Read.chunk)) := by
    rw [runReads_append]; simp [runReads, readStep]
  have he : endStep (runReads parse (startState label) (chunks.map Read.chunk))
      = { runReads parse (startState label) (chunks.map Read.chunk) with
          transcript := (runReads parse (startState label)
            (chunks.map Read.chunk)).transcript ++ [streamEndedMsg],
          sess := SessState.EndedWithoutResult, finished := true } := by
    simp [endStep, hf, h]
  rw [hrun, he]
  exact ⟨rfl, rfl, by decide, by decide, by decide⟩

/-- Witness for C2: a stream that closes after zero events ends in
`EndedWithoutResult`. -/
theorem enroll_end_without_terminal_witness :
    activeSess (runReads sampleParse (startState "a")
          ((([] : List (List Nat))).map Read.chunk)).sess = true
      ∧ (runReads sampleParse (startState "a")
            ((([] : List (List Nat))).map Read.chunk ++ [Read.done])).sess
          = SessState.EndedWithoutResult :=
  ⟨by decide, (enroll_end_without_terminal sampleParse "a" [] (by decide)).1⟩

/-- Claim C3: if the cancellation signal is set while the session condition is
still active, the run ends in `Cancelled`, and no read outcome delivered after
the signal — even bytes that had already arrived before the connection fully
closed — appends an event to the transcript or changes the observable state:
after the aborted read the loop processes nothing further. -/
theorem enroll_cancel_during_active (parse : List Char → Option Event) (label : String)
    (pre post : List Read)
    (h : activeSess (runReads parse (startState label) pre).sess = true) :
    (runReads parse (startState label) (pre ++ Read.aborted :: post)).sess
        = SessState.Cancelled
      ∧ (runReads parse (startState label) (pre ++ Read.aborted :: post)).transcript
          = (runReads parse (startState label) pre).transcript ++ [abortMsg]
      ∧ (runReads parse (startState label) (pre ++ Read.aborted :: post)).events
          = (runReads parse (startState label) pre).events
      ∧ (runReads parse (startState label) (pre ++ Read.aborted :: post)).streamClosed
          = (runReads parse (startState label) pre).streamClosed
      ∧ (runReads parse (startState label) (pre ++ Read.aborted :: post)).refreshCount
          = (runReads parse (startState label) pre).refreshCount := by
  have hf := active_not_finished parse label pre h
  have hab : abortStep (runReads parse (startState label) pre)
      = { runReads parse (startState label) pre with
          transcript := (runReads parse (startState label) pre).transcript ++ [abortMsg],
          sess := SessState.Cancelled, finished := true } := by
    simp [abortStep, hf]
  have hsplit : runReads parse (startState label) (pre ++ Read.aborted :: post)
      = runReads parse (abortStep (runReads parse (startState label) pre)) post := by
    rw [runReads_append]; simp [runReads, readStep]
  have hobs : (runReads parse (startState label) (pre ++ Read.aborted :: post)).obs
      = (abortStep (runReads parse (startState label) pre)).obs := by
    rw [hsplit]
    exact runReads_obs_finished parse _ post (by rw [hab])
  rw [hab] at hobs
  refine ⟨?_, ?_, ?_, ?_, ?_⟩
  · simpa [LoopState.obs] using congrArg Obs.sess hobs
  · simpa [LoopState.obs] using congrArg Obs.transcript hobs
  · simpa [LoopState.obs] using congrArg Obs.events hobs
  · simpa [LoopState.obs] using congrArg Obs.streamClosed hobs
  · simpa [LoopState.obs] using congrArg Obs.refreshCount hobs

/-- Witness for C3: cancelling right after start, the run ends `Cancelled` and
a full success stream delivered afterwards appends no event. -/
theorem enroll_cancel_during_active_witness :
    activeSess (runReads sampleParse (startState "bob") ([] : List Read)).sess = true
      ∧ (runReads sampleParse (startState "bob")
            (([] : List Read) ++ Read.aborted :: [Read.chunk okBytes, Read.done])).sess
          = SessState.Cancelled
      ∧ (runReads sampleParse (startState "bob")
            (([] : List Read) ++ Read.aborted :: [Read.chunk okBytes, Read.done])).events
          = (runReads sampleParse (startState "bob") ([] : List Read)).events :=
  ⟨by decide,
   (enroll_cancel_during_active sampleParse "bob" [] [Read.chunk okBytes, Read.done]
     (by decide)).1,
   (enroll_cancel_during_active sampleParse "bob" [] [Read.chunk okBytes, Read.done]
     (by decide)).2.2.1⟩

/-- Claim C10: when the stream reaches end-of-stream, the transcript and event
list of the whole run are a function of the complete (newline-terminated)
lines alone: a trailing partial line still held in the buffer is never parsed
and never appended — only the stream-ended marker is added. -/
theorem trailing_partial_discarded (parse : List Char → Option Event) (label : String)
    (chunks : List (List Nat))
    (h : (runReads parse (startState label) (chunks.map Read.chunk)).finished = false) :
    (runReads parse (startState label) (chunks.map Read.chunk ++ [Read.done])).transcript
        = ((splitNl (utf8DecodeList initDec chunks.flatten).2).1.foldl
            (processLine parse) (startState label)).transcript ++ [streamEndedMsg]
      ∧ (runReads parse (startState label) (chunks.map Read.chunk ++ [Read.done])).events
        = ((splitNl (utf8DecodeList initDec chunks.flatten).2).1.foldl
            (processLine parse) (startState label)).events := by
  have hb : '\n' ∉ (startState label).buffer := by simp [startState]
  have hchunks := runReads_chunks parse (startState label) chunks hb
  have hby : byteFeed parse (startState label) chunks.flatten
      = { (splitNl (utf8DecodeList initDec chunks.flatten).2).1.foldl
            (processLine parse) (startState label) with
          buffer := (splitNl (utf8DecodeList initDec chunks.flatten).2).2,
          dec := (utf8DecodeList initDec chunks.flatten).1 } := by
    simp only [byteFeed, textFeed]
    rw [show (startState label).buffer = ([] : List Char) from rfl,
      show (startState label).dec = initDec from rfl, List.nil_append]
  have hrun : runReads parse (startState label) (chunks.map Read.chunk ++ [Read.done])
      = endStep (byteFeed parse (startState label) chunks.flatten) := by
    rw [runReads_append, hchunks]; simp [runReads, readStep]
  have hf : (byteFeed parse (startState label) chunks.flatten).finished = false := by
    rw [← hchunks]; exact h
  have hend : endStep (byteFeed parse (startState label) chunks.flatten)
      = { byteFeed parse (startState label) chunks.flatten with
          transcript := (byteFeed parse (startState label) chunks.flatten).transcript
            ++ [streamEndedMsg],
          sess := if activeSess (byteFeed parse (startState label) chunks.flatten).sess
            then SessState.EndedWithoutResult
            else (byteFeed parse (startState label) chunks.flatten).sess,
          finished := true } := by
    simp [endStep, hf]
  rw [hrun, hend, hby]
  exact ⟨rfl, rfl⟩

/-- Witness for C10: a stream holding only the unterminated bytes `data: s`
produces a transcript with the start entry and the ended marker only. -/
theorem trailing_partial_discarded_witness :
    (runReads sampleParse (startState "w")
          (([[100, 97, 116, 97, 58, 32, 115]] : List (List Nat)).map
            Read.chunk)).finished = false
      ∧ (runReads sampleParse (startState "w")
            (([[100, 97, 116, 97, 58, 32, 115]] : List (List Nat)).map Read.chunk
              ++ [Read.done])).transcript
          = ((splitNl (utf8DecodeList initDec
                ([[100, 97, 116, 97, 58, 32, 115]] : List (List Nat)).flatten).2).1.foldl
              (processLine sampleParse) (startState "w")).transcript
            ++ [streamEndedMsg] :=
  ⟨by decide,
   (trailing_partial_discarded sampleParse "w" [[100, 97, 116, 97, 58, 32, 115]]
     (by decide)).1⟩

/-- Counterexample for C5 as stated: for the stream of exactly two progress
events followed by one success event, the run does end in `Success` with the
stream closed and one refresh, but the transcript has 4 entries (the prologue
start entry plus three event messages), not 3. -/
theorem two_progress_then_success_transcript_cx :
    (runReads sampleParse (startState "alice") [Read.chunk okBytes]).sess
        = SessState.Success
      ∧ (runReads sampleParse (startState "alice") [Read.chunk okBytes]).refreshCount = 1
      ∧ (runReads sampleParse (startState "alice") [Read.chunk okBytes]).streamClosed
        = true
      ∧ (runReads sampleParse (startState "alice")
          [Read.chunk okBytes]).transcript.length = 4
      ∧ (runReads sampleParse (startState "alice")
          [Read.chunk okBytes]).transcript.length ≠ 3 := by
  refine ⟨by decide, by decide, by decide, by decide, by decide⟩

/-- Claim C5 (amended): for the stream of exactly two progress events followed
by one success event, the final session condition is `Success`, the stream is
closed by the consumer, the identity-list refresh fires exactly once, and the
transcript has 4 entries: the prologue start entry followed by the three event
messages. -/
theorem two_progress_then_success_run (parse : List Char → Option Event) (label : String)
    (B : List Nat) (p1 p2 p3 : List Char) (e1 e2 e3 : Event)
    (hdec : (utf8DecodeList initDec B).2
      = (markerChars ++ p1) ++ '\n'
          :: ((markerChars ++ p2) ++ '\n' :: ((markerChars ++ p3) ++ '\n' :: [])))
    (hn1 : '\n' ∉ p1) (hn2 : '\n' ∉ p2) (hn3 : '\n' ∉ p3)
    (hp1 : parse p1 = some e1) (hp2 : parse p2 = some e2) (hp3 : parse p3 = some e3)
    (hs1 : e1.status = "progress") (hs2 : e2.status = "progress")
    (hs3 : e3.status = "success") :
    (runReads parse (startState label) [Read.chunk B]).sess = SessState.Success
      ∧ (runReads parse (startState label) [Read.chunk B]).transcript
          = [startMsg label, e1.message, e2.message, e3.message]
      ∧ (runReads parse (startState label) [Read.chunk B]).transcript.length = 4
      ∧ (runReads parse (startState label) [Read.chunk B]).events = [e1, e2, e3]
      ∧ (runReads parse (startState label) [Read.chunk B]).streamClosed = true
      ∧ (runReads parse (startState label) [Read.chunk B]).refreshCount = 1 := by
  have hA : '\n' ∉ markerChars ++ p1 := by
    simp only [List.mem_append, not_or]
    exact ⟨by decide, hn1⟩
  have hB : '\n' ∉ markerChars ++ p2 := by
    simp only [List.mem_append, not_or]
    exact ⟨by decide, hn2⟩
  have hC : '\n' ∉ markerChars ++ p3 := by
    simp only [List.mem_append, not_or]
    exact ⟨by decide, hn3⟩
  have hsplit3 : splitNl ((utf8DecodeList initDec B).2)
      = ([markerChars ++ p1, markerChars ++ p2, markerChars ++ p3], []) := by
    rw [hdec, splitNl_line _ _ hA, splitNl_line _ _ hB, splitNl_line _ _ hC, splitNl_nil]
  have hl1 : processLine parse (startState label) (markerChars ++ p1)
      = { startState label with
          transcript := [startMsg label, e1.message], events := [e1] } := by
    unfold processLine
    simp [startState, markerChars, hasMarker, hp1, hs1]
  have hl2 : processLine parse
      ({ startState label with
         transcript := [startMsg label, e1.message], events := [e1] })
      (markerChars ++ p2)
      = { startState label with
          transcript := [startMsg label, e1.message, e2.message],
          events := [e1, e2] } := by
    unfold processLine
    simp [startState, markerChars, hasMarker, hp2, hs2]
  have hl3 : processLine parse
      ({ startState label with
         transcript := [startMsg label, e1.message, e2.message], events := [e1, e2] })
      (markerChars ++ p3)
      = { transcript := [startMsg label, e1.message, e2.message, e3.message],
          events := [e1, e2, e3], sess := SessState.Success, streamClosed := true,
          refreshCount := 1, finished := true, buffer := [], dec := initDec } := by
    unfold processLine
    simp [startState, markerChars, hasMarker, hp3, hs3]
  have hrun : runReads parse (startState label) [Read.chunk B]
      = byteFeed parse (startState label) B := by
    simp [runReads, readStep]
  have hfeed : byteFeed parse (startState label) B
      = { transcript := [startMsg label, e1.message, e2.message, e3.message],
          events := [e1, e2, e3], sess := SessState.Success, streamClosed := true,
          refreshCount := 1, finished := true, buffer := [],
          dec := (utf8DecodeList initDec B).1 } := by
    simp only [byteFeed, textFeed]
    rw [show (startState label).buffer = ([] : List Char) from rfl,
      show (startState label).dec = initDec from rfl, List.nil_append, hsplit3]
    simp only [List.foldl_cons, List.foldl_nil]
    rw [hl1, hl2, hl3]
  rw [hrun, hfeed]
  exact ⟨rfl, rfl, rfl, rfl, rfl, rfl⟩

/-- Witness for C5 (amended), on the concrete bytes of
`data: p1\ndata: p2\ndata: s\n` under the sample parser. -/
theorem two_progress_then_success_run_witness :
    (utf8DecodeList initDec okBytes).2
        = (markerChars ++ ['p', '1']) ++ '\n'
            :: ((markerChars ++ ['p', '2']) ++ '\n'
              :: ((markerChars ++ ['s']) ++ '\n' :: []))
      ∧ (runReads sampleParse (startState "alice") [Read.chunk okBytes]).transcript
          = [startMsg "alice", "step one", "step two", "all done"] :=
  ⟨by decide,
   (two_progress_then_success_run sampleParse "alice" okBytes
      ['p', '1'] ['p', '2'] ['s']
      ⟨"progress", "step one"⟩ ⟨"progress", "step two"⟩ ⟨"success", "all done"⟩
      (by decide) (by decide) (by decide) (by decide)
      (by decide) (by decide) (by decide) (by decide) (by decide) (by decide)).2.1⟩

/-- Claim C8: a marker line whose payload fails to parse appends a parse-error
note to the transcript and nothing else: the session condition, the decoded
event list, the stream-closed flag are unchanged and the loop keeps running —
the failure never surfaces as a failure of the enrollment. -/
theorem parse_error_nonfatal (parse : List Char → Option Event) (st : LoopState)
    (payload : List Char) (hf : st.finished = false) (hp : parse payload = none) :
    processLine parse st (markerChars ++ payload)
        = { st with transcript := st.transcript ++ [parseErrMsg] }
      ∧ (processLine parse st (markerChars ++ payload)).sess = st.sess
      ∧ (processLine parse st (markerChars ++ payload)).events = st.events
      ∧ (processLine parse st (markerChars ++ payload)).streamClosed = st.streamClosed
      ∧ (processLine parse st (markerChars ++ payload)).finished = false := by
  have h1 : processLine parse st (markerChars ++ payload)
      = { st with transcript := st.transcript ++ [parseErrMsg] } := by
    unfold processLine
    simp [hf, markerChars, hasMarker, hp]
  exact ⟨h1, by rw [h1], by rw [h1], by rw [h1], by rw [h1]; exact hf⟩

/-- Witness for C8: an unparsable payload under the sample parser appends the
note and leaves the start state otherwise unchanged. -/
theorem parse_error_nonfatal_witness :
    (startState "x").finished = false
      ∧ sampleParse ['z'] = none
      ∧ processLine sampleParse (startState "x") (markerChars ++ ['z'])
          = { startState "x" with
              transcript := (startState "x").transcript ++ [parseErrMsg] } :=
  ⟨by decide, by decide,
   (parse_error_nonfatal sampleParse (startState "x") ['z'] (by decide) (by decide)).1⟩

/-- Counterexample for C4 as stated: invoking the enrollment start handler
while a session is already registering raises no `PreconditionError`, mutates
the component state (the log is replaced by a fresh start entry) and does
issue a new network request. -/
theorem start_unguarded_cx :
    (handleAddFingerprintPrologue ⟨true, ["old"]⟩ "bob").networkCallIssued = true
      ∧ (handleAddFingerprintPrologue ⟨true, ["old"]⟩ "bob").precondErrorRaised = false
      ∧ (handleAddFingerprintPrologue ⟨true, ["old"]⟩ "bob").state
          ≠ (⟨true, ["old"]⟩ : UIState) := by
  refine ⟨rfl, rfl, by decide⟩

/-- Claim C4 (amended): `handleAddFingerprint` performs no precondition check —
invoked in any state it resets the transcript, marks the session registering
and issues a new network request without raising any error; the only guard
against starting during an active session is the UI, whose modal footer while
registering offers no submit button and whose name input is disabled. -/
theorem start_unguarded_amended :
    (∀ st : UIState, ∀ label : String,
        (handleAddFingerprintPrologue st label).networkCallIssued = true
          ∧ (handleAddFingerprintPrologue st label).precondErrorRaised = false
          ∧ (handleAddFingerprintPrologue st label).state.isRegistering = true
          ∧ (handleAddFingerprintPrologue st label).state.sseLog = [startMsg label])
      ∧ "submit" ∉ modalFooterKeys true
      ∧ nameInputDisabled true = true :=
  ⟨fun _ _ => ⟨rfl, rfl, rfl, rfl⟩, by decide, rfl⟩

/-- Counterexample for C6 as stated: a fetched status value outside the
recognized enum is stored verbatim — it is not mapped to `unknown`, the
previously held state is not preserved, and no error is surfaced. -/
theorem unrecognized_status_stored_cx :
    recognizedMonitoringStatus "enabled" = false
      ∧ (fetchMonitoringStatusStep "disabled" (some "enabled")).1 = "enabled"
      ∧ (fetchMonitoringStatusStep "disabled" (some "enabled")).1 ≠ "unknown"
      ∧ (fetchMonitoringStatusStep "disabled" (some "enabled")).1 ≠ "disabled"
      ∧ (fetchMonitoringStatusStep "disabled" (some "enabled")).2 = false := by
  refine ⟨by decide, rfl, by decide, by decide, rfl⟩

/-- Claim C6 (amended): a successful status fetch stores the response value
as-is with no validation and no error surfaced, even when unrecognized — the
previously held state is replaced, not preserved, though the call does not
crash; only a failed request preserves the previous value and surfaces an
error.  The dedicated status badges fall back to the default (unknown) badge
for an unrecognized value, but not every rendering path treats it as unknown:
the `Statistic` prefix icon gives an unrecognized value the invisible-eye
icon, not the spinner reserved for the literal `unknown`. -/
theorem unrecognized_status_amended (prev s : String)
    (h1 : recognizedMonitoringStatus s = false) (h2 : recognizedDoorStatus s = false)
    (h3 : ¬ s = "unknown") :
    fetchMonitoringStatusStep prev (some s) = (s, false)
      ∧ fetchDoorStatusStep prev (some s) = (s, false)
      ∧ monitoringBadge s = BadgeKind.default
      ∧ doorBadge s = BadgeKind.default
      ∧ monitoringStatIcon s = IconKind.eyeInvisible
      ∧ monitoringStatIcon s ≠ monitoringStatIcon "unknown"
      ∧ fetchMonitoringStatusStep prev none = (prev, true)
      ∧ fetchDoorStatusStep prev none = (prev, true) := by
  have hm : (¬ s = "enabled_and_active" ∧ ¬ s = "enabled_but_paused")
      ∧ ¬ s = "disabled" := by
    simpa [recognizedMonitoringStatus, not_or] using h1
  have hd : ¬ s = "locked" ∧ ¬ s = "unlocked" := by
    simpa [recognizedDoorStatus, not_or] using h2
  have hi : monitoringStatIcon s = IconKind.eyeInvisible := by
    simp [monitoringStatIcon, hm.1.1, h3]
  refine ⟨rfl, rfl, ?_, ?_, hi, ?_, rfl, rfl⟩
  · simp [monitoringBadge, hm.1.1, hm.1.2, hm.2]
  · simp [doorBadge, hd.1, hd.2]
  · rw [hi]; decide

/-- Witness for C6 (amended) at the unrecognized value `"enabled"`. -/
theorem unrecognized_status_amended_witness :
    recognizedMonitoringStatus "enabled" = false
      ∧ recognizedDoorStatus "enabled" = false
      ∧ monitoringStatIcon "enabled" = IconKind.eyeInvisible :=
  ⟨by decide, by decide,
   (unrecognized_status_amended "disabled" "enabled"
     (by decide) (by decide) (by decide)).2.2.2.2.1⟩

/-- Claim C7: a resource command updates the local status optimistically to the
command's target value on success — already before any subsequent fetch is
applied — and on failure leaves the status exactly as it was while the caught
failure is the underlying one, unmodified (the response interceptor rejects
with the original error object). -/
theorem apply_command_optimistic (prev target s2 : String) (e : Failure) :
    applyResourceCommand prev target (Except.ok ()) = (target, none)
      ∧ applyResourceCommand prev target (Except.error e) = (prev, some e)
      ∧ responseInterceptorError e = e
      ∧ List.foldl resourceStep prev [ResourceAction.cmdOk target] = target
      ∧ List.foldl resourceStep prev
          [ResourceAction.cmdOk target, ResourceAction.fetchOk s2]
        = resourceStep target (ResourceAction.fetchOk s2) :=
  ⟨rfl, rfl, rfl, rfl, rfl⟩

/-- Claim C9: every request — the axios operations (status fetch, resource
command, identity list, identity delete) and the enrollment-stream fetch —
carries the base URL and bearer token current at its own issue time; the
values snapshotted at client construction never reach a request, so two
requests straddling a configuration change each see their own current
values. -/
theorem requests_read_fresh_config (snap snap2 c1 c2 : Config) :
    issuedRequest snap c1 = issuedRequest snap2 c1
      ∧ issuedRequest snap c1
          = { baseURL := c1.baseUrl, authorization := "Bearer " ++ c1.token }
      ∧ issuedRequest snap c2
          = { baseURL := c2.baseUrl, authorization := "Bearer " ++ c2.token }
      ∧ enrollmentFetchRequest c1
          = { baseURL := c1.baseUrl, authorization := "Bearer " ++ c1.token } :=
  ⟨rfl, rfl, rfl, rfl⟩

end OpenPrintLock
